import Mathlib

/-!
# Cutelyst: connection reset (wsgi/socket.h) and action dispatch (Cutelyst/action.cpp)

A shallow embedding of `CWSGI::Socket::resetSocket` and of the `Cutelyst::Action`
members `setupAction`, `match`, `matchCaptures`, `numberOfArgs`, `numberOfCaptures`
and `doExecute`.

Pointers are addresses (`Nat`) wrapped in `Option`; `none` is `nullptr`. The objects a
`ProtocolData *` may point to live in an explicit heap, so that "the same state",
"discarded" and "no new state" are statements about addresses, and a null or dangling
dereference is an explicit fault.
-/

namespace CWSGI

/-- A non-null address of a heap object. -/
abbrev Addr := Nat

/-- Modelled from the spec: the declaration of ProtocolData (protocol.h) is not part of the
sources. The spec's Connection State holds "accumulated-but-unconsumed byte buffer, current
decode cursor/stage, protocol-specific fields (e.g., header accumulation), and an optional
link to a previous Connection State that was active before an upgrade". Only the member
`upgradedFrom` (and the virtual `resetData`) is named by socket.h. -/
structure ProtocolData where
  /-- accumulated-but-unconsumed bytes -/
  buffer : List Nat
  /-- current decode cursor / stage; 0 is the initial stage -/
  cursor : Nat
  /-- protocol-specific fields -/
  fields : List Nat
  /-- `ProtocolData *upgradedFrom`; `none` is `nullptr` -/
  upgradedFrom : Option Addr
deriving DecidableEq, Repr

/-- Modelled from the spec: the body of the virtual `ProtocolData::resetData()` (protocol.h)
is not part of the sources. The spec says "Resetting a Connection State clears the buffer and
decode cursor"; the other fields, the upgraded-from link included, are kept. -/
def ProtocolData.resetData (d : ProtocolData) : ProtocolData :=
  { d with buffer := [], cursor := 0 }

/-- The free store holding the `ProtocolData` objects; `none` at an address means that no
live object is there. -/
abbrev Heap := Addr → Option ProtocolData

/-- Store `d` at address `p`. -/
def Heap.write (h : Heap) (p : Addr) (d : ProtocolData) : Heap :=
  fun r => if r = p then some d else h r

/-- The effect of `delete` on the object at address `p`: the object is gone; no other object
is touched. -/
def Heap.free (h : Heap) (p : Addr) : Heap :=
  fun r => if r = p then none else h r

/-- The data members of `class Socket` (socket.h lines 62-70). `QString`/`QHostAddress` are
strings, the `Engine *` and `Protocol *` pointers are addresses of shared objects that
`resetSocket` never dereferences. -/
structure Socket where
  serverAddress : String
  remoteAddress : String
  /-- `quint16 remotePort` -/
  remotePort : Nat
  /-- `Cutelyst::Engine *engine` -/
  engine : Addr
  /-- `Protocol *proto`, the active protocol -/
  proto : Addr
  /-- `ProtocolData *protoData = nullptr` -/
  protoData : Option Addr
  /-- `quint8 processing = 0`, the in-flight counter -/
  processing : Nat
  isSecure : Bool
  /-- `bool timeout = false` -/
  timeout : Bool
deriving DecidableEq, Repr

/-- A socket together with the heap its `protoData` points into. -/
structure State where
  heap : Heap
  sock : Socket

/-- What goes wrong when a pointer is dereferenced that must not be. -/
inductive Fault where
  /-- dereference of `nullptr` -/
  | nullDeref
  /-- dereference of an address that holds no live object -/
  | invalidDeref
deriving DecidableEq, Repr

/-- The dereference `ptr->...`: the address and the object it holds, or the fault. -/
def deref (h : Heap) : Option Addr → Except Fault (Addr × ProtocolData)
  | none => .error .nullDeref
  | some p =>
    match h p with
    | none => .error .invalidDeref
    | some d => .ok (p, d)

/-- The branch of `resetSocket` (socket.h lines 52-56):
```
if (protoData->upgradedFrom) {
    ProtocolData *data = protoData->upgradedFrom;
    delete protoData;
    protoData = data;
}
```
given the address `p` and the object `d` that `protoData` points to. -/
def restoreUpgradedFrom (st : State) (p : Addr) (d : ProtocolData) : State :=
  match d.upgradedFrom with
  | some data => { heap := st.heap.free p, sock := { st.sock with protoData := some data } }
  | none => st

/-- The member `Socket::resetSocket()` (socket.h lines 51-60). The virtual
`ProtocolData::resetData` is the parameter `resetData`, acting on the object the call is
made on.
```
if (protoData->upgradedFrom) { ... }
processing = 0;
protoData->resetData();
```
-/
def resetSocket (resetData : ProtocolData → ProtocolData) (st : State) : Except Fault State :=
  match deref st.heap st.sock.protoData with
  | .error e => .error e
  | .ok (p, d) =>
    let st1 := restoreUpgradedFrom st p d
    let st2 : State := { st1 with sock := { st1.sock with processing := 0 } }
    match deref st2.heap st2.sock.protoData with
    | .error e => .error e
    | .ok (p2, d2) => .ok { st2 with heap := st2.heap.write p2 (resetData d2) }

/-- `n` consecutive calls of `resetSocket`. -/
def resetSocketN (resetData : ProtocolData → ProtocolData) : Nat → State → Except Fault State
  | 0, st => .ok st
  | n + 1, st =>
    match resetSocket resetData st with
    | .error e => .error e
    | .ok st1 => resetSocketN resetData n st1

/-- An open socket: `protoData` points to a live state, and the upgraded-from link of that
state, when set, points to another live state. -/
def State.wellFormed (st : State) : Bool :=
  match st.sock.protoData with
  | none => false
  | some p =>
    match st.heap p with
    | none => false
    | some d =>
      match d.upgradedFrom with
      | none => true
      | some q => q != p && (st.heap q).isSome

/-- The upgraded-from chain that starts at the state at address `p` is made of live states
and follows at most `n` links. -/
def chainDepthLe (h : Heap) : Nat → Addr → Bool
  | 0, p =>
    match h p with
    | none => false
    | some d => d.upgradedFrom.isNone
  | n + 1, p =>
    match h p with
    | none => false
    | some d =>
      match d.upgradedFrom with
      | none => true
      | some q => chainDepthLe h n q

/-- The upgraded-from chain of the socket's current state has depth at most `n`. -/
def State.depthLe (st : State) (n : Nat) : Bool :=
  match st.sock.protoData with
  | none => false
  | some p => chainDepthLe st.heap n p

/-- A heap with an original state at address 1 (three buffered bytes, decode stage 2, one
protocol field) and, at address 2, the state of the protocol it was upgraded to. -/
def upgradedHeap : Heap := fun r =>
  if r = 1 then some { buffer := [71, 69, 84], cursor := 2, fields := [7], upgradedFrom := none }
  else if r = 2 then some { buffer := [129, 5], cursor := 1, fields := [], upgradedFrom := some 1 }
  else none

/-- An upgraded socket: its current state is the one at address 2, its active protocol is
the upgraded protocol (address 20; the original protocol is at address 10), and three
requests are counted in flight. -/
def upgradedState : State where
  heap := upgradedHeap
  sock := { serverAddress := "127.0.0.1:3000", remoteAddress := "127.0.0.1", remotePort := 40000,
            engine := 5, proto := 20, protoData := some 2, processing := 3,
            isSecure := false, timeout := false }

/-- A socket that was never upgraded: its current state is the one at address 1. -/
def plainState : State where
  heap := upgradedHeap.free 2
  sock := { upgradedState.sock with proto := 10, protoData := some 1, processing := 1 }

end CWSGI

namespace Cutelyst

/-- The parts of `Cutelyst::Context` that `Action::doExecute` reads and writes (context.h is
not part of the sources): the flag answered by `detached()` and set by `detach()`, the value
stored by `setState`, and the list `request()->args()`. -/
structure Context where
  detached : Bool
  state : Bool
  args : List String
deriving DecidableEq, Repr

/-- `Context::detach()` without an action: the context is marked detached. -/
def Context.detach (c : Context) : Context := { c with detached := true }

/-- `Context::setState(bool)`. -/
def Context.setState (c : Context) (b : Bool) : Context := { c with state := b }

/-- The handler arguments of one `QMetaMethod::invoke` call, after the `Context *`: either
one `QStringList` or nine `QString`s. -/
inductive InvokeArgs where
  | list (args : List String)
  | positional (a0 a1 a2 a3 a4 a5 a6 a7 a8 : String)
deriving DecidableEq, Repr

/-- What one `QMetaMethod::invoke` call leaves behind: `ret` is the value `invoke` returns
(whether the member could be invoked), `methodRet` is the value written through
`Q_RETURN_ARG(bool, methodRet)` (read only when `ret` holds), and `ctx` is the context after
the call, which the handler may have changed through its `Context *`. -/
structure InvokeResult where
  ret : Bool
  methodRet : Bool
  ctx : Context
deriving DecidableEq, Repr

/-- A `QMap<QString, QString>`, as its key/value pairs. -/
abbrev QMap := List (String × String)

/-- `QMap::value(key)`: the value stored under `key`, or a default-constructed (empty)
string when the key is absent. -/
def QMap.value (m : QMap) (key : String) : String :=
  match m.find? (fun kv => kv.1 == key) with
  | some kv => kv.2
  | none => ""

/-- The members of `ActionPrivate` that action.cpp uses (action_p.h is not part of the
sources). The counts are `qint8`, held as integers in `-128 .. 127`; `method` stands for
`d->method.invoke(d->controller, Qt::DirectConnection, ...)`, its first argument telling
whether a `Q_RETURN_ARG` is passed. -/
structure ActionPrivate where
  ns : String
  attributes : QMap
  numberOfArgs : Int
  numberOfCaptures : Int
  evaluateBool : Bool
  listSignature : Bool
  emptyArgs : List String
  method : Bool → Context → InvokeArgs → InvokeResult

/-- The two entries of the `QVariantHash` that `setupAction` reads: `"namespace"` as a
string and `"attributes"` as a `QMap<QString, QString>`. -/
structure SetupArgs where
  ns : String
  attributes : QMap
deriving DecidableEq, Repr

/-- The digits of a decimal numeral, most significant first, added to `acc`; `none` when a
character is not a digit. -/
def parseDigits : List Char → Nat → Option Nat
  | [], acc => some acc
  | c :: cs, acc =>
    if c.isDigit then parseDigits cs (acc * 10 + (c.toNat - 48)) else none

/-- The text with leading and trailing whitespace removed. -/
def trimChars (cs : List Char) : List Char :=
  ((cs.dropWhile Char.isWhitespace).reverse.dropWhile Char.isWhitespace).reverse

/-- `QString::toInt()` (Qt, base 10): surrounding whitespace is skipped, an optional sign is
followed by at least one digit, and the result is 0 when the conversion fails or the value
does not fit a 32-bit `int`. -/
def toInt (s : String) : Int :=
  let cs := trimChars s.toList
  let signed : Bool × List Char :=
    match cs with
    | '-' :: r => (true, r)
    | '+' :: r => (false, r)
    | r => (false, r)
  match signed.2 with
  | [] => 0
  | ds =>
    match parseDigits ds 0 with
    | none => 0
    | some v =>
      let n : Int := if signed.1 then -(v : Int) else (v : Int)
      if -2147483648 ≤ n ∧ n ≤ 2147483647 then n else 0

/-- The conversion of an `int` to `qint8` on assignment: the value modulo 2^8, taken in
`-128 .. 127`. -/
def toQint8 (n : Int) : Int := (n + 128) % 256 - 128

/-- The member `Action::setupAction` (action.cpp lines 61-81), on the private data. The call
`init(app, args)` belongs to `Component` and does not touch `ActionPrivate`.
```
d->ns = args.value("namespace").toString();
d->attributes = attributes;
const QString argsAttr = attributes.value("Args");
if (!argsAttr.isEmpty()) { d->numberOfArgs = argsAttr.toInt(); }
const QString capturesAttr = attributes.value("CaptureArgs");
if (!capturesAttr.isEmpty()) { d->numberOfCaptures = capturesAttr.toInt(); }
```
-/
def setupAction (d : ActionPrivate) (args : SetupArgs) : ActionPrivate :=
  let d1 := { d with ns := args.ns }
  let attributes := args.attributes
  let d2 := { d1 with attributes := attributes }
  let argsAttr := QMap.value attributes "Args"
  let d3 := if !argsAttr.isEmpty then { d2 with numberOfArgs := toQint8 (toInt argsAttr) } else d2
  let capturesAttr := QMap.value attributes "CaptureArgs"
  if !capturesAttr.isEmpty then { d3 with numberOfCaptures := toQint8 (toInt capturesAttr) }
  else d3

/-- The member `Action::match(int numberOfArgs)` (action.cpp lines 112-120):
`return d->numberOfArgs == -1 || d->numberOfArgs == numberOfArgs;` -/
def match_ (d : ActionPrivate) (numberOfArgs : Int) : Bool :=
  d.numberOfArgs == -1 || d.numberOfArgs == numberOfArgs

/-- The member `Action::matchCaptures(int numberOfCaptures)` (action.cpp lines 122-130):
`return d->numberOfCaptures == -1 || d->numberOfCaptures == numberOfCaptures;` -/
def matchCaptures (d : ActionPrivate) (numberOfCaptures : Int) : Bool :=
  d.numberOfCaptures == -1 || d.numberOfCaptures == numberOfCaptures

/-- The member `qint8 Action::numberOfArgs() const` (action.cpp lines 138-142). -/
def numberOfArgs (d : ActionPrivate) : Int := d.numberOfArgs

/-- The member `qint8 Action::numberOfCaptures() const` (action.cpp lines 144-148). -/
def numberOfCaptures (d : ActionPrivate) : Int := d.numberOfCaptures

/-- `QList::at(i)`: the element at index `i`, which must be a valid index; `none` when it is
out of bounds. -/
def at_ (args : List String) (i : Nat) : Option String := args[i]?

/-- The nine accesses `args.at(0)` .. `args.at(8)` of the positional call (action.cpp lines
176-184 and 211-219), in order; `none` as soon as one of them is out of bounds. -/
def positionalArgs (args : List String) : Option InvokeArgs := do
  let a0 ← at_ args 0
  let a1 ← at_ args 1
  let a2 ← at_ args 2
  let a3 ← at_ args 3
  let a4 ← at_ args 4
  let a5 ← at_ args 5
  let a6 ← at_ args 6
  let a7 ← at_ args 7
  let a8 ← at_ args 8
  pure (.positional a0 a1 a2 a3 a4 a5 a6 a7 a8)

/-- The arguments handed to `d->method.invoke` (action.cpp lines 161-185 and 198-220): with
the string-list signature the request's argument list itself, otherwise
```
QStringList args = c->request()->args();
// Fill the missing arguments
args += d->emptyArgs;
```
followed by the nine accesses. -/
def handlerArgs (d : ActionPrivate) (c : Context) : Option InvokeArgs :=
  if d.listSignature then
    some (.list c.args)
  else
    let args := c.args
    let args := args ++ d.emptyArgs
    positionalArgs args

/-- The member `Action::doExecute(Context *c)` (action.cpp lines 150-224): the returned
boolean and the context after the call; `none` when an `args.at(i)` is out of bounds. -/
def doExecute (d : ActionPrivate) (c : Context) : Option (Bool × Context) :=
  if c.detached then
    some (false, c)
  else if d.evaluateBool then
    match handlerArgs d c with
    | none => none
    | some a =>
      let r := d.method true c a
      if r.ret then
        some (r.methodRet, r.ctx.setState r.methodRet)
      else
        -- The method failed to be called which means we should detach
        some (false, (r.ctx.detach).setState false)
  else
    match handlerArgs d c with
    | none => none
    | some a =>
      let r := d.method false c a
      some (r.ret, r.ctx.setState r.ret)

/-- The default padding list of an action: nine empty strings. -/
def nineEmpty : List String := List.replicate 9 ""

/-- A handler binding that can never be invoked: `invoke` returns false and the handler
body does not run, so the context is untouched. -/
def failingMethod : Bool → Context → InvokeArgs → InvokeResult :=
  fun _ c _ => { ret := false, methodRet := false, ctx := c }

/-- A handler that answers whether its first positional argument (or the first element of
its list) is non-empty. -/
def echoMethod : Bool → Context → InvokeArgs → InvokeResult :=
  fun _ c a =>
    match a with
    | .list l => { ret := true, methodRet := !(l.headD "").isEmpty, ctx := c }
    | .positional a0 _ _ _ _ _ _ _ _ => { ret := true, methodRet := !a0.isEmpty, ctx := c }

/-- A freshly constructed action: both counts undefined (-1), no attributes. -/
def freshAction (evaluateBool listSignature : Bool)
    (method : Bool → Context → InvokeArgs → InvokeResult) : ActionPrivate where
  ns := ""
  attributes := []
  numberOfArgs := -1
  numberOfCaptures := -1
  evaluateBool := evaluateBool
  listSignature := listSignature
  emptyArgs := nineEmpty
  method := method

/-- A context that is not detached, with two request arguments. -/
def liveContext : Context := { detached := false, state := true, args := ["a", "b"] }

end Cutelyst

namespace CWSGI

/-! ## resetSocket: the two paths -/

theorem wellFormed_iff (st : State) :
    st.wellFormed = true ↔
      ∃ p d, st.sock.protoData = some p ∧ st.heap p = some d ∧
        ∀ q, d.upgradedFrom = some q → q ≠ p ∧ ∃ dq, st.heap q = some dq := by
  unfold State.wellFormed
  constructor
  · intro h
    cases hp : st.sock.protoData with
    | none => simp [hp] at h
    | some p =>
      cases hd : st.heap p with
      | none => simp [hp, hd] at h
      | some d =>
        refine ⟨p, d, rfl, hd, ?_⟩
        intro q hq
        simp [hp, hd, hq] at h
        obtain ⟨hne, hsome⟩ := h
        exact ⟨hne, Option.isSome_iff_exists.mp hsome⟩
  · rintro ⟨p, d, hp, hd, hq⟩
    simp only [hp, hd]
    cases hu : d.upgradedFrom with
    | none => rfl
    | some q =>
      obtain ⟨hne, dq, hdq⟩ := hq q hu
      simp [hne, hdq]

/-- The path through the branch: the current state has an upgraded-from state. -/
theorem resetSocket_upgraded (resetData : ProtocolData → ProtocolData) (st : State)
    (p q : Addr) (d dq : ProtocolData)
    (hp : st.sock.protoData = some p) (hd : st.heap p = some d)
    (hu : d.upgradedFrom = some q) (hne : q ≠ p) (hq : st.heap q = some dq) :
    resetSocket resetData st =
      .ok { heap := (st.heap.free p).write q (resetData dq),
            sock := { st.sock with protoData := some q, processing := 0 } } := by
  simp [resetSocket, deref, restoreUpgradedFrom, hp, hd, hu, Heap.free, hne, hq]

/-- The path around the branch: the current state has no upgraded-from state. -/
theorem resetSocket_plain (resetData : ProtocolData → ProtocolData) (st : State)
    (p : Addr) (d : ProtocolData)
    (hp : st.sock.protoData = some p) (hd : st.heap p = some d)
    (hu : d.upgradedFrom = none) :
    resetSocket resetData st =
      .ok { heap := st.heap.write p (resetData d),
            sock := { st.sock with processing := 0 } } := by
  simp [resetSocket, deref, restoreUpgradedFrom, hp, hd, hu]

theorem resetData_clears (d : ProtocolData) :
    (ProtocolData.resetData d).buffer = [] ∧ (ProtocolData.resetData d).cursor = 0 :=
  ⟨rfl, rfl⟩

theorem upgradedState_wellFormed : upgradedState.wellFormed = true := by decide

theorem plainState_wellFormed : plainState.wellFormed = true := by decide

/-! ## C1: which state is current after a reset -/

/-- C1. For every open socket, `resetSocket` returns, and: if the current state (at address
`p`) has an upgraded-from state at address `q`, then `q` is the address of the current state
afterwards, the upgraded state at `p` is gone from the heap, and the object at `q` is the old
object at `q` with `resetData` applied; otherwise `p` stays the address of the current state
and the object there is the old one with `resetData` applied. In both cases every other
address of the heap holds what it held before, so no state is newly allocated. -/
theorem resetSocket_restores_or_clears_in_place (resetData : ProtocolData → ProtocolData)
    (st : State) (p : Addr) (d : ProtocolData)
    (hp : st.sock.protoData = some p) (hd : st.heap p = some d)
    (hwf : st.wellFormed = true) :
    ∃ st1, resetSocket resetData st = .ok st1 ∧
      (∀ q, d.upgradedFrom = some q →
        st1.sock.protoData = some q ∧ st1.heap p = none ∧
        (∃ dq, st.heap q = some dq ∧ st1.heap q = some (resetData dq)) ∧
        ∀ r, r ≠ p → r ≠ q → st1.heap r = st.heap r) ∧
      (d.upgradedFrom = none →
        st1.sock.protoData = some p ∧ st1.heap p = some (resetData d) ∧
        ∀ r, r ≠ p → st1.heap r = st.heap r) := by
  obtain ⟨p0, d0, hp0, hd0, hq0⟩ := (wellFormed_iff st).mp hwf
  have hpp : p0 = p := by rw [hp] at hp0; exact (Option.some.inj hp0).symm
  subst hpp
  have hdd : d0 = d := by rw [hd] at hd0; exact (Option.some.inj hd0).symm
  subst hdd
  cases hu : d0.upgradedFrom with
  | none =>
    refine ⟨_, resetSocket_plain resetData st p0 d0 hp hd hu, ?_, ?_⟩
    · intro q hq; cases hq
    · intro _
      refine ⟨hp, by simp [Heap.write], ?_⟩
      intro r hr
      simp [Heap.write, hr]
  | some q =>
    obtain ⟨hne, dq, hdq⟩ := hq0 q hu
    refine ⟨_, resetSocket_upgraded resetData st p0 q d0 dq hp hd hu hne hdq, ?_, ?_⟩
    · intro q1 hq1
      cases hq1
      refine ⟨rfl, ?_, ⟨dq, hdq, by simp [Heap.write]⟩, ?_⟩
      · simp [Heap.write, Heap.free, Ne.symm hne]
      · intro r hr1 hr2
        simp [Heap.write, Heap.free, hr1, hr2]
    · intro h; cases h

/-- C1 at the upgraded example socket (current state at address 2, upgraded from the state at
address 1: afterwards the state at 1 is current and the one at 2 is gone) and at the plain
example socket (current state at address 1, no upgraded-from state: it stays current). -/
theorem resetSocket_restores_or_clears_in_place_witness :
    (∃ st1, resetSocket ProtocolData.resetData upgradedState = .ok st1 ∧
      st1.sock.protoData = some 1 ∧ st1.heap 2 = none ∧
      ∃ dq, upgradedState.heap 1 = some dq ∧
        st1.heap 1 = some (ProtocolData.resetData dq)) ∧
    (∃ st1, resetSocket ProtocolData.resetData plainState = .ok st1 ∧
      st1.sock.protoData = some 1 ∧
      st1.heap 1 = some (ProtocolData.resetData
        { buffer := [71, 69, 84], cursor := 2, fields := [7], upgradedFrom := none })) := by
  constructor
  · obtain ⟨st1, h, hup, _⟩ :=
      resetSocket_restores_or_clears_in_place ProtocolData.resetData upgradedState 2
        { buffer := [129, 5], cursor := 1, fields := [], upgradedFrom := some 1 }
        rfl rfl upgradedState_wellFormed
    obtain ⟨a, b, c, _⟩ := hup 1 rfl
    exact ⟨st1, h, a, b, c⟩
  · obtain ⟨st1, h, _, hpl⟩ :=
      resetSocket_restores_or_clears_in_place ProtocolData.resetData plainState 1
        { buffer := [71, 69, 84], cursor := 2, fields := [7], upgradedFrom := none }
        rfl rfl plainState_wellFormed
    obtain ⟨a, b, _⟩ := hpl rfl
    exact ⟨st1, h, a, b⟩

/-! ## C2: the contents of the restored state -/

/-- C2, as stated, fails: at the upgraded example socket the upgraded-from state at address 1
holds three buffered bytes and decode stage 2; after `resetSocket` the current state is the
one at address 1, but its buffer is empty and its decode stage is 0, so it is not the state
as held before the call. -/
theorem resetSocket_restored_not_verbatim :
    ∃ st1, resetSocket ProtocolData.resetData upgradedState = .ok st1 ∧
      st1.sock.protoData = some 1 ∧
      upgradedState.heap 1 =
        some { buffer := [71, 69, 84], cursor := 2, fields := [7], upgradedFrom := none } ∧
      st1.heap 1 = some { buffer := [], cursor := 0, fields := [7], upgradedFrom := none } ∧
      st1.heap 1 ≠ upgradedState.heap 1 := by
  refine ⟨_, resetSocket_upgraded ProtocolData.resetData upgradedState 2 1 _ _ rfl rfl rfl
    (by decide) rfl, rfl, rfl, ?_, ?_⟩
  · simp [Heap.write, ProtocolData.resetData]
  · simp [Heap.write, ProtocolData.resetData, upgradedState, upgradedHeap]

/-- C2, amended. For every open socket and every `resetData` that clears the buffer and the
decode cursor: if the current state has an upgraded-from state `S` (at address `q`), after
`resetSocket` the current state is the one at `q` and it is `S` with `resetData` applied, so
its buffer is empty and its decode cursor is at the initial stage, not as `S` held them; if
no upgraded-from state is present the current state stays in place, with `resetData` applied
and hence an empty buffer and the initial cursor. -/
theorem resetSocket_restored_state_is_reset (resetData : ProtocolData → ProtocolData)
    (hclr : ∀ d, (resetData d).buffer = [] ∧ (resetData d).cursor = 0)
    (st : State) (p : Addr) (d : ProtocolData)
    (hp : st.sock.protoData = some p) (hd : st.heap p = some d)
    (hwf : st.wellFormed = true) :
    ∃ st1, resetSocket resetData st = .ok st1 ∧
      (∀ q S, d.upgradedFrom = some q → st.heap q = some S →
        st1.sock.protoData = some q ∧ st1.heap q = some (resetData S) ∧
        (resetData S).buffer = [] ∧ (resetData S).cursor = 0) ∧
      (d.upgradedFrom = none →
        st1.sock.protoData = some p ∧ st1.heap p = some (resetData d) ∧
        (resetData d).buffer = [] ∧ (resetData d).cursor = 0) := by
  obtain ⟨p0, d0, hp0, hd0, hq0⟩ := (wellFormed_iff st).mp hwf
  have hpp : p0 = p := by rw [hp] at hp0; exact (Option.some.inj hp0).symm
  subst hpp
  have hdd : d0 = d := by rw [hd] at hd0; exact (Option.some.inj hd0).symm
  subst hdd
  cases hu : d0.upgradedFrom with
  | none =>
    refine ⟨_, resetSocket_plain resetData st p0 d0 hp hd hu, ?_, ?_⟩
    · intro q S hq; cases hq
    · intro _
      exact ⟨hp, by simp [Heap.write], (hclr d0).1, (hclr d0).2⟩
  | some q =>
    obtain ⟨hne, dq, hdq⟩ := hq0 q hu
    refine ⟨_, resetSocket_upgraded resetData st p0 q d0 dq hp hd hu hne hdq, ?_, ?_⟩
    · intro q1 S hq1 hS
      cases hq1
      have hSd : dq = S := by rw [hdq] at hS; exact Option.some.inj hS
      subst hSd
      exact ⟨rfl, by simp [Heap.write], (hclr dq).1, (hclr dq).2⟩
    · intro h; cases h

/-- C2 (amended) at the upgraded example socket, whose upgraded-from state holds three
buffered bytes, and at the plain example socket, with the `resetData` that clears buffer and
cursor and keeps the rest. -/
theorem resetSocket_restored_state_is_reset_witness :
    (∃ st1, resetSocket ProtocolData.resetData upgradedState = .ok st1 ∧
      st1.sock.protoData = some 1 ∧
      st1.heap 1 = some (ProtocolData.resetData
        { buffer := [71, 69, 84], cursor := 2, fields := [7], upgradedFrom := none })) ∧
    (∃ st1, resetSocket ProtocolData.resetData plainState = .ok st1 ∧
      st1.sock.protoData = some 1 ∧
      st1.heap 1 = some (ProtocolData.resetData
        { buffer := [71, 69, 84], cursor := 2, fields := [7], upgradedFrom := none })) := by
  constructor
  · obtain ⟨st1, h, hup, _⟩ :=
      resetSocket_restored_state_is_reset ProtocolData.resetData resetData_clears
        upgradedState 2
        { buffer := [129, 5], cursor := 1, fields := [], upgradedFrom := some 1 }
        rfl rfl upgradedState_wellFormed
    obtain ⟨a, b, _⟩ := hup 1
      { buffer := [71, 69, 84], cursor := 2, fields := [7], upgradedFrom := none } rfl rfl
    exact ⟨st1, h, a, b⟩
  · obtain ⟨st1, h, _, hpl⟩ :=
      resetSocket_restored_state_is_reset ProtocolData.resetData resetData_clears
        plainState 1
        { buffer := [71, 69, 84], cursor := 2, fields := [7], upgradedFrom := none }
        rfl rfl plainState_wellFormed
    obtain ⟨a, b, _⟩ := hpl rfl
    exact ⟨st1, h, a, b⟩

/-! ## C3: the active protocol reference after a reset -/

/-- C3, as stated, fails: the upgraded example socket has the upgraded protocol (address 20)
as its active protocol, the original protocol being at address 10. After `resetSocket` the
current state is the original state at address 1, while the active protocol reference is
still 20 and not 10. -/
theorem resetSocket_proto_not_restored :
    ∃ st1, resetSocket ProtocolData.resetData upgradedState = .ok st1 ∧
      upgradedState.sock.proto = 20 ∧
      st1.sock.protoData = some 1 ∧
      st1.sock.proto = 20 ∧ st1.sock.proto ≠ 10 := by
  refine ⟨_, resetSocket_upgraded ProtocolData.resetData upgradedState 2 1 _ _ rfl rfl rfl
    (by decide) rfl, rfl, rfl, rfl, ?_⟩
  decide

/-- C3, amended. For every open socket whose current state (at `p`) has an upgraded-from
link to `q`, `resetSocket` returns with the state at `q`, the original protocol's state, as
the current state, and leaves the active protocol reference `proto` as it was before the
call; the other members apart from `protoData` and `processing` are unchanged as well. -/
theorem resetSocket_keeps_proto (resetData : ProtocolData → ProtocolData)
    (st : State) (p q : Addr) (d : ProtocolData)
    (hp : st.sock.protoData = some p) (hd : st.heap p = some d)
    (hu : d.upgradedFrom = some q) (hwf : st.wellFormed = true) :
    ∃ st1, resetSocket resetData st = .ok st1 ∧
      st1.sock.protoData = some q ∧
      st1.sock.proto = st.sock.proto ∧
      st1.sock = { st.sock with protoData := some q, processing := 0 } := by
  obtain ⟨p0, d0, hp0, hd0, hq0⟩ := (wellFormed_iff st).mp hwf
  have hpp : p0 = p := by rw [hp] at hp0; exact (Option.some.inj hp0).symm
  subst hpp
  have hdd : d0 = d := by rw [hd] at hd0; exact (Option.some.inj hd0).symm
  subst hdd
  obtain ⟨hne, dq, hdq⟩ := hq0 q hu
  exact ⟨_, resetSocket_upgraded resetData st p0 q d0 dq hp hd hu hne hdq, rfl, rfl, rfl⟩

/-- C3 (amended) at the upgraded example socket. -/
theorem resetSocket_keeps_proto_witness :
    ∃ st1, resetSocket ProtocolData.resetData upgradedState = .ok st1 ∧
      st1.sock.protoData = some 1 ∧
      st1.sock.proto = upgradedState.sock.proto ∧
      st1.sock = { upgradedState.sock with protoData := some 1, processing := 0 } :=
  resetSocket_keeps_proto ProtocolData.resetData upgradedState 2 1
    { buffer := [129, 5], cursor := 1, fields := [], upgradedFrom := some 1 }
    rfl rfl rfl upgradedState_wellFormed

/-! ## C5: depth of the upgraded-from chain -/

theorem depthLe_zero_iff (st : State) :
    st.depthLe 0 = true ↔
      ∃ p d, st.sock.protoData = some p ∧ st.heap p = some d ∧ d.upgradedFrom = none := by
  unfold State.depthLe
  constructor
  · intro h
    cases hp : st.sock.protoData with
    | none => simp [hp] at h
    | some p =>
      cases hd : st.heap p with
      | none => simp [hp, chainDepthLe, hd] at h
      | some d =>
        simp [hp, chainDepthLe, hd] at h
        exact ⟨p, d, rfl, hd, h⟩
  · rintro ⟨p, d, hp, hd, hu⟩
    simp [hp, chainDepthLe, hd, hu]

theorem depthLe_one_iff (st : State) :
    st.depthLe 1 = true ↔
      ∃ p d, st.sock.protoData = some p ∧ st.heap p = some d ∧
        (d.upgradedFrom = none ∨
          ∃ q dq, d.upgradedFrom = some q ∧ st.heap q = some dq ∧ dq.upgradedFrom = none) := by
  unfold State.depthLe
  constructor
  · intro h
    cases hp : st.sock.protoData with
    | none => simp [hp] at h
    | some p =>
      cases hd : st.heap p with
      | none => simp [hp, chainDepthLe, hd] at h
      | some d =>
        refine ⟨p, d, rfl, hd, ?_⟩
        cases hu : d.upgradedFrom with
        | none => exact Or.inl rfl
        | some q =>
          right
          cases hq : st.heap q with
          | none => simp [hp, chainDepthLe, hd, hu, hq] at h
          | some dq =>
            simp [hp, chainDepthLe, hd, hu, hq] at h
            exact ⟨q, dq, rfl, hq, h⟩
  · rintro ⟨p, d, hp, hd, hu | ⟨q, dq, hu, hq, huq⟩⟩
    · simp [hp, chainDepthLe, hd, hu]
    · simp [hp, chainDepthLe, hd, hu, hq, huq]

theorem depthLe_zero_one (st : State) (h : st.depthLe 0 = true) : st.depthLe 1 = true := by
  obtain ⟨p, d, hp, hd, hu⟩ := (depthLe_zero_iff st).mp h
  exact (depthLe_one_iff st).mpr ⟨p, d, hp, hd, Or.inl hu⟩

/-- One reset of a socket whose chain has depth at most 1 returns a socket whose current
state has no upgraded-from link, when `resetData` keeps that link. -/
theorem resetSocket_depth_step (resetData : ProtocolData → ProtocolData)
    (hrd : ∀ d, (resetData d).upgradedFrom = d.upgradedFrom)
    (st : State) (h : st.depthLe 1 = true) :
    ∃ st1, resetSocket resetData st = .ok st1 ∧ st1.depthLe 0 = true := by
  obtain ⟨p, d, hp, hd, hu | ⟨q, dq, hu, hq, huq⟩⟩ := (depthLe_one_iff st).mp h
  · refine ⟨_, resetSocket_plain resetData st p d hp hd hu, ?_⟩
    refine (depthLe_zero_iff _).mpr ⟨p, resetData d, hp, by simp [Heap.write], ?_⟩
    rw [hrd, hu]
  · have hne : q ≠ p := by
      intro e
      subst e
      rw [hd] at hq
      have : d = dq := Option.some.inj hq
      subst this
      rw [hu] at huq
      cases huq
    refine ⟨_, resetSocket_upgraded resetData st p q d dq hp hd hu hne hq, ?_⟩
    refine (depthLe_zero_iff _).mpr ⟨q, resetData dq, rfl, by simp [Heap.write], ?_⟩
    rw [hrd, huq]

theorem resetSocketN_depth (resetData : ProtocolData → ProtocolData)
    (hrd : ∀ d, (resetData d).upgradedFrom = d.upgradedFrom) (n : Nat) :
    ∀ st : State, st.depthLe 1 = true →
      ∃ stn, resetSocketN resetData n st = .ok stn ∧ stn.depthLe 1 = true := by
  induction n with
  | zero => intro st h; exact ⟨st, rfl, h⟩
  | succ n ih =>
    intro st h
    obtain ⟨st1, h1, hz⟩ := resetSocket_depth_step resetData hrd st h
    obtain ⟨stn, hn, hdn⟩ := ih st1 (depthLe_zero_one st1 hz)
    refine ⟨stn, ?_, hdn⟩
    simp [resetSocketN, h1, hn]

theorem resetData_keeps_upgradedFrom (d : ProtocolData) :
    (ProtocolData.resetData d).upgradedFrom = d.upgradedFrom := rfl

theorem upgradedState_depthLe_one : upgradedState.depthLe 1 = true := by decide

/-- C5. For every socket whose current state has an upgraded-from chain of depth at most 1,
and every `resetData` that leaves the upgraded-from link of the state it clears alone:
`resetSocket` returns a socket whose current state carries no upgraded-from link (depth 0, so
at most 1), and any number `n` of consecutive resets returns a socket whose chain has depth
at most 1. -/
theorem resetSocket_chain_depth_le_one (resetData : ProtocolData → ProtocolData)
    (hrd : ∀ d, (resetData d).upgradedFrom = d.upgradedFrom)
    (st : State) (h : st.depthLe 1 = true) :
    (∃ st1, resetSocket resetData st = .ok st1 ∧
      st1.depthLe 0 = true ∧ st1.depthLe 1 = true) ∧
    ∀ n, ∃ stn, resetSocketN resetData n st = .ok stn ∧ stn.depthLe 1 = true := by
  constructor
  · obtain ⟨st1, h1, hz⟩ := resetSocket_depth_step resetData hrd st h
    exact ⟨st1, h1, hz, depthLe_zero_one st1 hz⟩
  · intro n
    exact resetSocketN_depth resetData hrd n st h

/-- C5 at the upgraded example socket, with the `resetData` that clears buffer and cursor. -/
theorem resetSocket_chain_depth_le_one_witness :
    (∃ st1, resetSocket ProtocolData.resetData upgradedState = .ok st1 ∧
      st1.depthLe 0 = true ∧ st1.depthLe 1 = true) ∧
    ∀ n, ∃ stn, resetSocketN ProtocolData.resetData n upgradedState = .ok stn ∧
      stn.depthLe 1 = true :=
  resetSocket_chain_depth_le_one ProtocolData.resetData resetData_keeps_upgradedFrom
    upgradedState upgradedState_depthLe_one

/-! ## C6: protoData is never null -/

/-- C6. For every socket whose `protoData` is not null and every `resetData`: `resetSocket`
never faults on a null dereference (neither at the `upgradedFrom` test nor at the `resetData`
call), whenever it returns the resulting `protoData` is not null, and on every open socket
(with or without an upgraded-from state) it does return. -/
theorem resetSocket_protoData_non_null (resetData : ProtocolData → ProtocolData)
    (st : State) (h : st.sock.protoData ≠ none) :
    resetSocket resetData st ≠ .error .nullDeref ∧
    (∀ st1, resetSocket resetData st = .ok st1 → st1.sock.protoData ≠ none) ∧
    (st.wellFormed = true →
      ∃ st1, resetSocket resetData st = .ok st1 ∧ st1.sock.protoData ≠ none) := by
  cases hp : st.sock.protoData with
  | none => exact absurd hp h
  | some p =>
    refine ⟨?_, ?_, ?_⟩
    · cases hd : st.heap p with
      | none => simp [resetSocket, deref, hp, hd]
      | some d =>
        cases hu : d.upgradedFrom with
        | none => simp [resetSocket_plain resetData st p d hp hd hu]
        | some q =>
          cases hq : st.heap.free p q with
          | none => simp [resetSocket, deref, restoreUpgradedFrom, hp, hd, hu, hq]
          | some dq => simp [resetSocket, deref, restoreUpgradedFrom, hp, hd, hu, hq]
    · intro st1
      cases hd : st.heap p with
      | none => simp [resetSocket, deref, hp, hd]
      | some d =>
        cases hu : d.upgradedFrom with
        | none =>
          rw [resetSocket_plain resetData st p d hp hd hu]
          intro e
          cases e
          simp [hp]
        | some q =>
          cases hq : st.heap.free p q with
          | none => simp [resetSocket, deref, restoreUpgradedFrom, hp, hd, hu, hq]
          | some dq =>
            simp only [resetSocket, deref, restoreUpgradedFrom, hp, hd, hu, hq]
            intro e
            cases e
            simp
    · intro hwf
      obtain ⟨p0, d0, hp0, hd0, hq0⟩ := (wellFormed_iff st).mp hwf
      cases hu : d0.upgradedFrom with
      | none =>
        refine ⟨_, resetSocket_plain resetData st p0 d0 hp0 hd0 hu, ?_⟩
        simp [hp0]
      | some q =>
        obtain ⟨hne, dq, hdq⟩ := hq0 q hu
        refine ⟨_, resetSocket_upgraded resetData st p0 q d0 dq hp0 hd0 hu hne hdq, ?_⟩
        simp

/-- C6 at the upgraded example socket and at the plain one: `protoData` is not null before,
no null dereference happens, and `protoData` is not null after. -/
theorem resetSocket_protoData_non_null_witness :
    upgradedState.sock.protoData ≠ none ∧
    resetSocket ProtocolData.resetData upgradedState ≠ .error .nullDeref ∧
    (∃ st1, resetSocket ProtocolData.resetData upgradedState = .ok st1 ∧
      st1.sock.protoData ≠ none) ∧
    (∃ st1, resetSocket ProtocolData.resetData plainState = .ok st1 ∧
      st1.sock.protoData ≠ none) :=
  ⟨by decide,
   (resetSocket_protoData_non_null ProtocolData.resetData upgradedState (by decide)).1,
   (resetSocket_protoData_non_null ProtocolData.resetData upgradedState (by decide)).2.2
     upgradedState_wellFormed,
   (resetSocket_protoData_non_null ProtocolData.resetData plainState (by decide)).2.2
     plainState_wellFormed⟩

/-! ## C7: the in-flight counter -/

/-- C7. For every socket and every `resetData`: the in-flight counter is at least 0 before
the call; whenever `resetSocket` returns, the counter is at least 0 and exactly 0, whatever
it was before; and on every open socket `resetSocket` does return (with the counter 0). -/
theorem resetSocket_processing_zero (resetData : ProtocolData → ProtocolData) (st : State) :
    0 ≤ st.sock.processing ∧
    (∀ st1, resetSocket resetData st = .ok st1 →
      0 ≤ st1.sock.processing ∧ st1.sock.processing = 0) ∧
    (st.wellFormed = true →
      ∃ st1, resetSocket resetData st = .ok st1 ∧ st1.sock.processing = 0) := by
  refine ⟨Nat.zero_le _, ?_, ?_⟩
  · intro st1
    unfold resetSocket
    cases h1 : deref st.heap st.sock.protoData with
    | error e => simp
    | ok pd =>
      obtain ⟨p, d⟩ := pd
      simp only
      split
      · simp
      · intro e
        cases e
        simp
  · intro hwf
    obtain ⟨p0, d0, hp0, hd0, hq0⟩ := (wellFormed_iff st).mp hwf
    cases hu : d0.upgradedFrom with
    | none => exact ⟨_, resetSocket_plain resetData st p0 d0 hp0 hd0 hu, rfl⟩
    | some q =>
      obtain ⟨hne, dq, hdq⟩ := hq0 q hu
      exact ⟨_, resetSocket_upgraded resetData st p0 q d0 dq hp0 hd0 hu hne hdq, rfl⟩

/-- C7 at the upgraded example socket, which counts three requests in flight. -/
theorem resetSocket_processing_zero_witness :
    upgradedState.sock.processing = 3 ∧
    ∃ st1, resetSocket ProtocolData.resetData upgradedState = .ok st1 ∧
      st1.sock.processing = 0 :=
  ⟨rfl, (resetSocket_processing_zero ProtocolData.resetData upgradedState).2.2
    upgradedState_wellFormed⟩

end CWSGI

namespace Cutelyst

/-! ## C8: match and matchCaptures -/

/-- An action with both counts defined: two args, one capture. -/
theorem match_defined_example :
    match_ { freshAction false true echoMethod with numberOfArgs := 2 } 2 = true ∧
    match_ { freshAction false true echoMethod with numberOfArgs := 2 } 3 = false ∧
    matchCaptures { freshAction false true echoMethod with numberOfCaptures := 1 } 1 = true ∧
    matchCaptures { freshAction false true echoMethod with numberOfCaptures := 1 } 0 = false := by
  decide

/-- C8. For every action and every integer `k`: `match(k)` is true exactly when the stored
number of args is -1 or equals `k`, and `matchCaptures(k)` is true exactly when the stored
number of captures is -1 or equals `k`; an undefined count (-1) matches every `k`, and a
defined count matches only `k` equal to it. -/
theorem match_iff_undefined_or_equal (d : ActionPrivate) (k : Int) :
    (match_ d k = true ↔ d.numberOfArgs = -1 ∨ d.numberOfArgs = k) ∧
    (matchCaptures d k = true ↔ d.numberOfCaptures = -1 ∨ d.numberOfCaptures = k) ∧
    (d.numberOfArgs = -1 → match_ d k = true) ∧
    (d.numberOfCaptures = -1 → matchCaptures d k = true) ∧
    (d.numberOfArgs ≠ -1 → (match_ d k = true ↔ k = d.numberOfArgs)) ∧
    (d.numberOfCaptures ≠ -1 → (matchCaptures d k = true ↔ k = d.numberOfCaptures)) := by
  have hm : match_ d k = true ↔ d.numberOfArgs = -1 ∨ d.numberOfArgs = k := by
    simp [match_]
  have hc : matchCaptures d k = true ↔ d.numberOfCaptures = -1 ∨ d.numberOfCaptures = k := by
    simp [matchCaptures]
  refine ⟨hm, hc, ?_, ?_, ?_, ?_⟩
  · intro h; exact hm.mpr (Or.inl h)
  · intro h; exact hc.mpr (Or.inl h)
  · intro h
    rw [hm]
    constructor
    · rintro (h1 | h1)
      · exact absurd h1 h
      · exact h1.symm
    · intro h1; exact Or.inr h1.symm
  · intro h
    rw [hc]
    constructor
    · rintro (h1 | h1)
      · exact absurd h1 h
      · exact h1.symm
    · intro h1; exact Or.inr h1.symm

/-- C8 at a fresh action (both counts undefined) asked for 7, and at an action with two args
asked for 2. -/
theorem match_iff_undefined_or_equal_witness :
    match_ (freshAction false true echoMethod) 7 = true ∧
    matchCaptures (freshAction false true echoMethod) 7 = true ∧
    (match_ { freshAction false true echoMethod with numberOfArgs := 2 } 2 = true ↔
      (2 : Int) = 2) :=
  ⟨(match_iff_undefined_or_equal (freshAction false true echoMethod) 7).2.2.1 rfl,
   (match_iff_undefined_or_equal (freshAction false true echoMethod) 7).2.2.2.1 rfl,
   (match_iff_undefined_or_equal
      { freshAction false true echoMethod with numberOfArgs := 2 } 2).2.2.2.2.1 (by decide)⟩

/-! ## C9: the counts read by setupAction -/

/-- What `setupAction` stores as the number of args: the attribute `Args` converted by
`toInt` and narrowed to `qint8` when it is not empty, the old count otherwise. -/
theorem setupAction_numberOfArgs (d : ActionPrivate) (args : SetupArgs) :
    numberOfArgs (setupAction d args) =
      if (QMap.value args.attributes "Args").isEmpty then d.numberOfArgs
      else toQint8 (toInt (QMap.value args.attributes "Args")) := by
  unfold setupAction numberOfArgs
  by_cases h1 : (QMap.value args.attributes "Args").isEmpty = true <;>
    by_cases h2 : (QMap.value args.attributes "CaptureArgs").isEmpty = true <;>
    simp [h1, h2]

/-- What `setupAction` stores as the number of captures. -/
theorem setupAction_numberOfCaptures (d : ActionPrivate) (args : SetupArgs) :
    numberOfCaptures (setupAction d args) =
      if (QMap.value args.attributes "CaptureArgs").isEmpty then d.numberOfCaptures
      else toQint8 (toInt (QMap.value args.attributes "CaptureArgs")) := by
  unfold setupAction numberOfCaptures
  by_cases h1 : (QMap.value args.attributes "Args").isEmpty = true <;>
    by_cases h2 : (QMap.value args.attributes "CaptureArgs").isEmpty = true <;>
    simp [h1, h2]

/-- A count in `0 .. 127` survives the narrowing to `qint8`. -/
theorem toQint8_small (n : Int) (h0 : 0 ≤ n) (h1 : n ≤ 127) : toQint8 n = n := by
  unfold toQint8
  omega

/-- For an `Args` attribute that `toInt` reads as `n` with `0 ≤ n ≤ 127`, the stored count is
`n` and `match(k)` holds exactly when `k = n`. -/
theorem setupAction_args_in_range (d : ActionPrivate) (args : SetupArgs) (n : Int)
    (hne : (QMap.value args.attributes "Args").isEmpty = false)
    (hn : toInt (QMap.value args.attributes "Args") = n) (h0 : 0 ≤ n) (h1 : n ≤ 127) (k : Int) :
    numberOfArgs (setupAction d args) = n ∧
    (match_ (setupAction d args) k = true ↔ k = n) := by
  have hs := setupAction_numberOfArgs d args
  rw [hne, hn, toQint8_small n h0 h1] at hs
  simp only [Bool.false_eq_true, if_false] at hs
  unfold numberOfArgs at hs
  refine ⟨hs, ?_⟩
  simp only [match_, hs, Bool.or_eq_true, beq_iff_eq]
  constructor
  · rintro (h | h)
    · omega
    · exact h.symm
  · intro h; exact Or.inr h.symm

/-- C9, evaluated where it fails. With the attribute `Args` set to the numeral 255 (and
likewise `CaptureArgs`), `setupAction` on a fresh action stores -1: `numberOfArgs()` returns
-1, not 255, and `match(k)` is true for every `k`; with the numeral 128 the stored count is
-128, which no request matches at 128. With 127 the count is 127 and only 127 matches. -/
theorem setupAction_count_255_slurps_all :
    toInt "255" = 255 ∧
    numberOfArgs (setupAction (freshAction false true echoMethod)
      { ns := "", attributes := [("Args", "255")] }) = -1 ∧
    (∀ k, match_ (setupAction (freshAction false true echoMethod)
      { ns := "", attributes := [("Args", "255")] }) k = true) ∧
    numberOfCaptures (setupAction (freshAction false true echoMethod)
      { ns := "", attributes := [("CaptureArgs", "255")] }) = -1 ∧
    (∀ k, matchCaptures (setupAction (freshAction false true echoMethod)
      { ns := "", attributes := [("CaptureArgs", "255")] }) k = true) ∧
    numberOfArgs (setupAction (freshAction false true echoMethod)
      { ns := "", attributes := [("Args", "128")] }) = -128 ∧
    match_ (setupAction (freshAction false true echoMethod)
      { ns := "", attributes := [("Args", "128")] }) 128 = false ∧
    numberOfArgs (setupAction (freshAction false true echoMethod)
      { ns := "", attributes := [("Args", "127")] }) = 127 := by
  have h1 : numberOfArgs (setupAction (freshAction false true echoMethod)
      { ns := "", attributes := [("Args", "255")] }) = -1 := by decide
  have h2 : numberOfCaptures (setupAction (freshAction false true echoMethod)
      { ns := "", attributes := [("CaptureArgs", "255")] }) = -1 := by decide
  refine ⟨by decide, h1, ?_, h2, ?_, by decide, by decide, by decide⟩
  · intro k
    unfold numberOfArgs at h1
    simp [match_, h1]
  · intro k
    unfold numberOfCaptures at h2
    simp [matchCaptures, h2]

/-! ## C4: a handler that cannot be invoked -/

/-- The bool-returning path: when the context is not detached and `invoke` fails, the
context is detached, its state is set to false and `doExecute` returns false. -/
theorem doExecute_bool_failure_detaches (d : ActionPrivate) (c : Context) (a : InvokeArgs)
    (hc : c.detached = false) (hb : d.evaluateBool = true)
    (ha : handlerArgs d c = some a) (hf : (d.method true c a).ret = false) :
    ∃ c1, doExecute d c = some (false, c1) ∧ c1.detached = true ∧ c1.state = false := by
  refine ⟨((d.method true c a).ctx.detach).setState false, ?_, rfl, rfl⟩
  simp [doExecute, hc, hb, ha, hf]

/-- The path of a handler that does not return bool: when the context is not detached and
`invoke` fails, the state is set to false and `doExecute` returns false, and the detached
flag is whatever the call left, nothing sets it. -/
theorem doExecute_void_failure (d : ActionPrivate) (c : Context) (a : InvokeArgs)
    (hc : c.detached = false) (hb : d.evaluateBool = false)
    (ha : handlerArgs d c = some a) (hf : (d.method false c a).ret = false) :
    ∃ c1, doExecute d c = some (false, c1) ∧
      c1.detached = (d.method false c a).ctx.detached ∧ c1.state = false := by
  refine ⟨(d.method false c a).ctx.setState false, ?_, rfl, rfl⟩
  simp [doExecute, hc, hb, ha, hf]

/-- C4, evaluated where it fails. The context is not detached and the handler cannot be
invoked. For a handler that does not return bool, with the string-list signature and with
the positional one, `doExecute` returns false and sets the state to false but leaves the
context not detached; for a bool-returning handler, with either signature, the context is
detached. -/
theorem doExecute_void_failure_not_detached :
    liveContext.detached = false ∧
    doExecute (freshAction false true failingMethod) liveContext =
      some (false, { detached := false, state := false, args := ["a", "b"] }) ∧
    doExecute (freshAction false false failingMethod) liveContext =
      some (false, { detached := false, state := false, args := ["a", "b"] }) ∧
    doExecute (freshAction true true failingMethod) liveContext =
      some (false, { detached := true, state := false, args := ["a", "b"] }) ∧
    doExecute (freshAction true false failingMethod) liveContext =
      some (false, { detached := true, state := false, args := ["a", "b"] }) := by
  decide

/-! ## C10: the positional call -/

/-- The padded list holds, at every index below 9, the request argument at that index or the
empty string when the request has no such argument. -/
theorem at_padded (l : List String) (i : Nat) (hi : i < 9) :
    at_ (l ++ List.replicate 9 "") i = some (l.getD i "") := by
  unfold at_
  by_cases h : i < l.length
  · rw [List.getElem?_append_left h]
    simp [List.getD, List.getElem?_eq_getElem h]
  · have h2 : l.length ≤ i := Nat.le_of_not_lt h
    rw [List.getElem?_append_right h2]
    have h3 : l[i]? = none := List.getElem?_eq_none h2
    have h4 : i - l.length < (List.replicate 9 "").length := by
      rw [List.length_replicate]; omega
    rw [List.getElem?_eq_getElem h4, List.getElem_replicate]
    simp [List.getD, h3]

/-- The nine accesses on a padded list all succeed. -/
theorem positionalArgs_padded (l : List String) :
    positionalArgs (l ++ List.replicate 9 "") =
      some (.positional (l.getD 0 "") (l.getD 1 "") (l.getD 2 "") (l.getD 3 "")
        (l.getD 4 "") (l.getD 5 "") (l.getD 6 "") (l.getD 7 "") (l.getD 8 "")) := by
  unfold positionalArgs
  rw [at_padded l 0 (by decide), at_padded l 1 (by decide), at_padded l 2 (by decide),
    at_padded l 3 (by decide), at_padded l 4 (by decide), at_padded l 5 (by decide),
    at_padded l 6 (by decide), at_padded l 7 (by decide), at_padded l 8 (by decide)]
  rfl

/-- Only the first nine request arguments reach `getD` at an index below 9. -/
theorem getD_take_nine (l : List String) (i : Nat) (hi : i < 9) :
    (l.take 9).getD i "" = l.getD i "" := by
  simp [List.getD, List.getElem?_take, hi]

/-- C10. For every action with the positional signature whose padding list `emptyArgs` holds
nine empty strings, and every context: each of the nine accesses `args.at(0)` ..
`args.at(8)` on the padded list is in bounds and yields the request argument at that index,
or the empty string when the request has fewer arguments; the handler is called with
exactly these nine strings; `doExecute` returns (on a context that is not detached, with the
result of that one call); and the arguments handed over are the same when the request
arguments from position 9 on are dropped. -/
theorem doExecute_positional_nine_args (d : ActionPrivate) (c : Context)
    (hsig : d.listSignature = false) (hpad : d.emptyArgs = List.replicate 9 "") :
    (∀ i, i < 9 → at_ (c.args ++ d.emptyArgs) i = some (c.args.getD i "")) ∧
    handlerArgs d c =
      some (.positional (c.args.getD 0 "") (c.args.getD 1 "") (c.args.getD 2 "")
        (c.args.getD 3 "") (c.args.getD 4 "") (c.args.getD 5 "") (c.args.getD 6 "")
        (c.args.getD 7 "") (c.args.getD 8 "")) ∧
    handlerArgs d { c with args := c.args.take 9 } = handlerArgs d c ∧
    (c.detached = false →
      ∃ r : InvokeResult,
        r = d.method d.evaluateBool c
          (.positional (c.args.getD 0 "") (c.args.getD 1 "") (c.args.getD 2 "")
            (c.args.getD 3 "") (c.args.getD 4 "") (c.args.getD 5 "") (c.args.getD 6 "")
            (c.args.getD 7 "") (c.args.getD 8 "")) ∧
        doExecute d c =
          some (if d.evaluateBool then
                  (if r.ret then (r.methodRet, r.ctx.setState r.methodRet)
                   else (false, (r.ctx.detach).setState false))
                else (r.ret, r.ctx.setState r.ret))) := by
  have hargs : handlerArgs d c =
      some (.positional (c.args.getD 0 "") (c.args.getD 1 "") (c.args.getD 2 "")
        (c.args.getD 3 "") (c.args.getD 4 "") (c.args.getD 5 "") (c.args.getD 6 "")
        (c.args.getD 7 "") (c.args.getD 8 "")) := by
    simp only [handlerArgs, hsig, hpad, Bool.false_eq_true, if_false]
    exact positionalArgs_padded c.args
  refine ⟨?_, hargs, ?_, ?_⟩
  · intro i hi
    rw [hpad]
    exact at_padded c.args i hi
  · rw [hargs]
    simp only [handlerArgs, hsig, hpad, Bool.false_eq_true, if_false]
    rw [positionalArgs_padded (c.args.take 9)]
    rw [getD_take_nine c.args 0 (by decide), getD_take_nine c.args 1 (by decide),
      getD_take_nine c.args 2 (by decide), getD_take_nine c.args 3 (by decide),
      getD_take_nine c.args 4 (by decide), getD_take_nine c.args 5 (by decide),
      getD_take_nine c.args 6 (by decide), getD_take_nine c.args 7 (by decide),
      getD_take_nine c.args 8 (by decide)]
  · intro hc
    refine ⟨_, rfl, ?_⟩
    cases hb : d.evaluateBool with
    | true =>
      simp only [doExecute, hc, hb, hargs, Bool.false_eq_true, if_false, if_true]
      split <;> rfl
    | false =>
      simp only [doExecute, hc, hb, hargs, Bool.false_eq_true, if_false]

/-- C10 at an action with the positional signature and a request with two arguments: the
handler receives "a", "b" and seven empty strings, and `doExecute` returns its answer. -/
theorem doExecute_positional_nine_args_witness :
    handlerArgs (freshAction true false echoMethod) liveContext =
      some (.positional "a" "b" "" "" "" "" "" "" "") ∧
    doExecute (freshAction true false echoMethod) liveContext =
      some (true, { detached := false, state := true, args := ["a", "b"] }) := by
  obtain ⟨_, h2, _, h4⟩ :=
    doExecute_positional_nine_args (freshAction true false echoMethod) liveContext rfl rfl
  obtain ⟨r, hr, hx⟩ := h4 rfl
  refine ⟨h2, ?_⟩
  rw [hx, hr]
  decide

end Cutelyst
